import Mathlib

/-!
Verification development for the Miller-indices lattice-plane calculator.

The authoritative engine is the `InterceptCalculator` class of `src/config.js`
(the iteration taking `{h, k, l, system}` / `{h, k, i, l, system}` parameters,
whose results carry `parameters.system` as required by the visualizer's
`createPlane` in `src/unnamed/part_000`).  The display-frame transform and the
shape builder are embedded from `MillerVisualizer.visualize` / `createPlane`
in `src/unnamed/part_000`.

Numbers: every coordinate the engine produces lies in ℚ[√3] (reciprocals of
integer indices, and the hexagonal in-plane directions (−1/2, ±√3/2)).  We
embed JavaScript numbers by the exact field `K` of values `a + b·√3` with
`a b : ℚ`; the floating literals `1e-10` (zero-snap threshold) and the
configuration constants are embedded by their exact rational values.  JS
comparisons on numbers become the decidable order `K.le`/`K.lt`, which is
proved below (`K.nonneg_iff_toReal`) to agree with the real order under
`a + b·√3 ↦ (a : ℝ) + b·√3`.

`THREE.Vector3.normalize` divides by the (irrational) Euclidean length, so the
stored unit normal is kept symbolically as a `NormalSpec` (which branch of the
source built it, and from which exact vector); its real-number meaning is
`NormalSpec.toR`, using the actual square-root normalization over ℝ.
-/

namespace Miller

/-- The field ℚ[√3]: `x` stands for the real number `x.a + x.b * √3`. -/
structure K where
  a : ℚ
  b : ℚ
deriving DecidableEq, Repr

namespace K

def ofQ (q : ℚ) : K := ⟨q, 0⟩

def ofInt (n : ℤ) : K := ⟨(n : ℚ), 0⟩

instance : Zero K := ⟨⟨0, 0⟩⟩
instance : One K := ⟨⟨1, 0⟩⟩

instance : Add K := ⟨fun x y => ⟨x.a + y.a, x.b + y.b⟩⟩
instance : Neg K := ⟨fun x => ⟨-x.a, -x.b⟩⟩
instance : Sub K := ⟨fun x y => ⟨x.a - y.a, x.b - y.b⟩⟩

/-- Multiplication: `(a + b√3)(c + d√3) = (ac + 3bd) + (ad + bc)√3`. -/
instance : Mul K := ⟨fun x y => ⟨x.a * y.a + 3 * x.b * y.b, x.a * y.b + x.b * y.a⟩⟩

/-- Scaling by a rational. -/
def smul (q : ℚ) (x : K) : K := ⟨q * x.a, q * x.b⟩

@[simp] theorem zero_a : (0 : K).a = 0 := rfl
@[simp] theorem zero_b : (0 : K).b = 0 := rfl
@[simp] theorem add_a (x y : K) : (x + y).a = x.a + y.a := rfl
@[simp] theorem add_b (x y : K) : (x + y).b = x.b + y.b := rfl
@[simp] theorem sub_a (x y : K) : (x - y).a = x.a - y.a := rfl
@[simp] theorem sub_b (x y : K) : (x - y).b = x.b - y.b := rfl
@[simp] theorem mul_a (x y : K) : (x * y).a = x.a * y.a + 3 * x.b * y.b := rfl
@[simp] theorem mul_b (x y : K) : (x * y).b = x.a * y.b + x.b * y.a := rfl
@[simp] theorem smul_a (q : ℚ) (x : K) : (smul q x).a = q * x.a := rfl
@[simp] theorem smul_b (q : ℚ) (x : K) : (smul q x).b = q * x.b := rfl
@[simp] theorem ofQ_a (q : ℚ) : (ofQ q).a = q := rfl
@[simp] theorem ofQ_b (q : ℚ) : (ofQ q).b = 0 := rfl
@[simp] theorem ofInt_a (n : ℤ) : (ofInt n).a = (n : ℚ) := rfl
@[simp] theorem ofInt_b (n : ℤ) : (ofInt n).b = 0 := rfl

theorem eq_iff_parts {x y : K} : x = y ↔ x.a = y.a ∧ x.b = y.b := by
  constructor
  · rintro rfl; exact ⟨rfl, rfl⟩
  · rcases x with ⟨xa, xb⟩; rcases y with ⟨ya, yb⟩
    rintro ⟨h1, h2⟩; simp_all

/-- Nonnegativity (`x ≥ 0`) as a sign analysis on the two rational components
(`a + b√3 ≥ 0`).  Decidable, and proved to agree with the real order in
`nonneg_iff_toReal`. -/
def nonneg (x : K) : Prop :=
  (0 ≤ x.a ∧ 0 ≤ x.b) ∨
  (0 ≤ x.a ∧ x.b < 0 ∧ 3 * x.b ^ 2 ≤ x.a ^ 2) ∨
  (x.a < 0 ∧ 0 ≤ x.b ∧ x.a ^ 2 ≤ 3 * x.b ^ 2)

instance (x : K) : Decidable x.nonneg := by unfold nonneg; infer_instance

/-- Embedding of the JavaScript `<=` on numbers. -/
def le (x y : K) : Prop := nonneg (y - x)

/-- Embedding of the JavaScript `<` on numbers. -/
def lt (x y : K) : Prop := ¬ le y x

instance (x y : K) : Decidable (le x y) := by unfold le; infer_instance
instance (x y : K) : Decidable (lt x y) := by unfold lt; infer_instance

/-- Embedding of `Math.max(x, y)`. -/
def maxK (x y : K) : K := if le x y then y else x

/-- Embedding of `Math.min(x, y)`. -/
def minK (x y : K) : K := if le x y then x else y

/-- The real number a `K` value stands for. -/
noncomputable def toReal (x : K) : ℝ := (x.a : ℝ) + (x.b : ℝ) * Real.sqrt 3

theorem sqrt3_pos : (0 : ℝ) < Real.sqrt 3 := Real.sqrt_pos.mpr (by norm_num)

theorem sqrt3_sq : Real.sqrt 3 ^ 2 = 3 := Real.sq_sqrt (by norm_num)

/-- The sign analysis `nonneg` agrees with the real order. -/
theorem nonneg_iff_toReal (x : K) : x.nonneg ↔ 0 ≤ x.toReal := by
  have hs := sqrt3_pos
  have hsq := sqrt3_sq
  set s := Real.sqrt 3 with hsdef
  constructor
  · rintro (⟨h1, h2⟩ | ⟨h1, h2, h3⟩ | ⟨h1, h2, h3⟩)
    · have : (0 : ℝ) ≤ (x.a : ℝ) := by exact_mod_cast h1
      have hb : (0 : ℝ) ≤ (x.b : ℝ) := by exact_mod_cast h2
      have := mul_nonneg hb hs.le
      unfold toReal; linarith
    · have ha : (0 : ℝ) ≤ (x.a : ℝ) := by exact_mod_cast h1
      have hb : (x.b : ℝ) < 0 := by exact_mod_cast h2
      have h3' : 3 * (x.b : ℝ) ^ 2 ≤ (x.a : ℝ) ^ 2 := by exact_mod_cast h3
      unfold toReal
      nlinarith [mul_pos (neg_pos.mpr hb) hs, sq_nonneg ((x.a : ℝ) + x.b * s)]
    · have ha : (x.a : ℝ) < 0 := by exact_mod_cast h1
      have hb : (0 : ℝ) ≤ (x.b : ℝ) := by exact_mod_cast h2
      have h3' : (x.a : ℝ) ^ 2 ≤ 3 * (x.b : ℝ) ^ 2 := by exact_mod_cast h3
      unfold toReal
      nlinarith [mul_nonneg hb hs.le, sq_nonneg ((x.a : ℝ) - x.b * s)]
  · intro h
    by_contra hn
    unfold nonneg at hn
    push_neg at hn
    unfold toReal at h
    rcases le_or_lt 0 x.a with ha | ha
    · rcases le_or_lt 0 x.b with hb | hb
      · exact absurd (hn.1 ha) (not_lt.mpr hb)
      · have h3 := hn.2.1 ha hb
        have ha' : (0 : ℝ) ≤ (x.a : ℝ) := by exact_mod_cast ha
        have hb' : (x.b : ℝ) < 0 := by exact_mod_cast hb
        have h3' : (x.a : ℝ) ^ 2 < 3 * (x.b : ℝ) ^ 2 := by exact_mod_cast h3
        nlinarith [mul_pos (neg_pos.mpr hb') hs]
    · rcases le_or_lt 0 x.b with hb | hb
      · have h3 := hn.2.2 ha hb
        have ha' : (x.a : ℝ) < 0 := by exact_mod_cast ha
        have hb' : (0 : ℝ) ≤ (x.b : ℝ) := by exact_mod_cast hb
        have h3' : 3 * (x.b : ℝ) ^ 2 < (x.a : ℝ) ^ 2 := by exact_mod_cast h3
        nlinarith [mul_nonneg hb' hs.le]
      · have ha' : (x.a : ℝ) < 0 := by exact_mod_cast ha
        have hb' : (x.b : ℝ) < 0 := by exact_mod_cast hb
        nlinarith [mul_pos (neg_pos.mpr hb') hs]

theorem le_iff_toReal (x y : K) : le x y ↔ x.toReal ≤ y.toReal := by
  have h := nonneg_iff_toReal (y - x)
  unfold le
  rw [h]
  unfold toReal
  constructor <;> intro hh <;> [skip; skip] <;>
    · simp only [sub_a, sub_b, Rat.cast_sub] at *
      nlinarith [sqrt3_pos]

theorem lt_iff_toReal (x y : K) : lt x y ↔ x.toReal < y.toReal := by
  unfold lt
  rw [le_iff_toReal]
  exact not_le

/-- Scaling by a positive rational preserves the sign analysis. -/
theorem nonneg_smul_iff {q : ℚ} (hq : 0 < q) (x : K) :
    (smul q x).nonneg ↔ x.nonneg := by
  have h1 : (0 ≤ q * x.a) ↔ (0 ≤ x.a) :=
    ⟨fun h => nonneg_of_mul_nonneg_right h hq, fun h => mul_nonneg hq.le h⟩
  have h2 : (0 ≤ q * x.b) ↔ (0 ≤ x.b) :=
    ⟨fun h => nonneg_of_mul_nonneg_right h hq, fun h => mul_nonneg hq.le h⟩
  have h3 : (q * x.a < 0) ↔ (x.a < 0) := by
    rw [← not_le, ← not_le, not_iff_not]; exact h1
  have h4 : (q * x.b < 0) ↔ (x.b < 0) := by
    rw [← not_le, ← not_le, not_iff_not]; exact h2
  have h5 : (3 * (q * x.b) ^ 2 ≤ (q * x.a) ^ 2) ↔ (3 * x.b ^ 2 ≤ x.a ^ 2) := by
    rw [mul_pow, mul_pow]
    constructor <;> intro h <;> nlinarith [sq_nonneg q, pow_pos hq 2]
  have h6 : ((q * x.a) ^ 2 ≤ 3 * (q * x.b) ^ 2) ↔ (x.a ^ 2 ≤ 3 * x.b ^ 2) := by
    rw [mul_pow, mul_pow]
    constructor <;> intro h <;> nlinarith [sq_nonneg q, pow_pos hq 2]
  unfold nonneg
  simp only [smul_a, smul_b]
  rw [h1, h2, h3, h4, h5, h6]

theorem smul_sub (q : ℚ) (x y : K) : smul q (x - y) = smul q x - smul q y := by
  simp [eq_iff_parts, mul_sub]

theorem le_smul_iff {q : ℚ} (hq : 0 < q) (x y : K) :
    le (smul q x) (smul q y) ↔ le x y := by
  unfold le
  rw [← smul_sub]
  exact nonneg_smul_iff hq _

/-- Taking `Math.max` commutes with scaling by a positive rational. -/
theorem smul_maxK {q : ℚ} (hq : 0 < q) (x y : K) :
    smul q (maxK x y) = maxK (smul q x) (smul q y) := by
  unfold maxK
  by_cases h : le x y
  · rw [if_pos h, if_pos ((le_smul_iff hq x y).mpr h)]
  · rw [if_neg h, if_neg (fun hc => h ((le_smul_iff hq x y).mp hc))]

theorem mul_ofQ (x : K) (q : ℚ) : x * ofQ q = smul q x := by
  simp only [eq_iff_parts, mul_a, mul_b, ofQ_a, ofQ_b, smul_a, smul_b]
  constructor <;> ring

end K

/-- Vectors in 3D over `K` (embedding of `THREE.Vector3` as produced by the
engine, whose coordinates always lie in ℚ[√3]). -/
structure V3 where
  x : K
  y : K
  z : K
deriving DecidableEq, Repr

namespace V3

instance : Zero V3 := ⟨⟨0, 0, 0⟩⟩
instance : Add V3 := ⟨fun u v => ⟨u.x + v.x, u.y + v.y, u.z + v.z⟩⟩

/-- Embedding of `divideScalar`/`multiplyScalar` by a rational. -/
def smul (q : ℚ) (v : V3) : V3 := ⟨K.smul q v.x, K.smul q v.y, K.smul q v.z⟩

/-- Embedding of `Vector3.lengthSq()`. -/
def lengthSq (v : V3) : K := v.x * v.x + v.y * v.y + v.z * v.z

@[simp] theorem zero_x : (0 : V3).x = 0 := rfl
@[simp] theorem zero_y : (0 : V3).y = 0 := rfl
@[simp] theorem zero_z : (0 : V3).z = 0 := rfl
@[simp] theorem add_x (u v : V3) : (u + v).x = u.x + v.x := rfl
@[simp] theorem add_y (u v : V3) : (u + v).y = u.y + v.y := rfl
@[simp] theorem add_z (u v : V3) : (u + v).z = u.z + v.z := rfl

end V3

/-- Sum of a list of vectors, starting from `new THREE.Vector3()` (zero) and
adding each in order. -/
def sumV (l : List V3) : V3 := l.foldl (· + ·) 0

/-- Arithmetic mean of a list of points: `sum` then `divideScalar(length)`. -/
def meanV (l : List V3) : V3 := V3.smul (1 / (l.length : ℚ)) (sumV l)

/-- The zero-snap threshold `1e-10` of the source, as an exact rational. -/
def epsQ : ℚ := 1 / 10 ^ 10

def epsK : K := K.ofQ epsQ

/-- Embedding of `Math.abs` (written out so that it evaluates by kernel reduction). -/
def jsAbs (q : ℚ) : ℚ := if q < 0 then -q else q

theorem jsAbs_eq_abs (q : ℚ) : jsAbs q = |q| := by
  unfold jsAbs
  split
  · exact (abs_of_neg (by assumption)).symm
  · exact (abs_of_nonneg (le_of_not_lt (by assumption))).symm

/-- Embedding of `InterceptCalculator._calculateSingleIntercept`: reciprocal of an index,
`Infinity` (here `none`) for zero / below-threshold magnitude.  Indices are
integers, so the `Number.isFinite` guard of the source always passes. -/
def calculateSingleIntercept (n : ℤ) : Option ℚ :=
  if jsAbs (n : ℚ) < epsQ then none else some (1 / (n : ℚ))

/-- Embedding of `InterceptCalculator._calculatePlaneCenter`: mean of the valid points,
origin for an empty list (defensive branch), and centers with squared length
below `1e-10` snapped to the exact origin. -/
def calculatePlaneCenter (pts : List (Option V3)) : V3 :=
  let valid := pts.filterMap id
  if valid.length = 0 then 0
  else
    let center := meanV valid
    if K.lt center.lengthSq epsK then 0 else center

/-- Extent of a bounding box along one coordinate: max minus min of the
coordinate over a (nonempty, for our uses) point list. -/
def bboxExtent (ps : List V3) (coord : V3 → K) : K :=
  match ps.map coord with
  | [] => 0
  | c :: cs => (cs.foldl K.maxK c) - (cs.foldl K.minK c)

/-- Embedding of `InterceptCalculator._calculatePlaneSize`: `DEFAULT_SIZE * 1.5` for at
most one valid point, otherwise `min(max(maxDimension, 0.5) * 1.5, MAX_SIZE)`
where `maxDimension` is the largest dimension of the bounding box of the
origin together with the valid points (`CONFIG.PLANE`: `DEFAULT_SIZE = 3`,
`MAX_SIZE = 10`). -/
def calculatePlaneSize (pts : List (Option V3)) : K :=
  let valid := pts.filterMap id
  if valid.length ≤ 1 then K.ofQ (3 * (3 / 2))
  else
    let boxPts := (0 : V3) :: valid
    let sizeX := bboxExtent boxPts (·.x)
    let sizeY := bboxExtent boxPts (·.y)
    let sizeZ := bboxExtent boxPts (·.z)
    let maxDimension := K.maxK (K.maxK sizeX sizeY) sizeZ
    let calculatedSize := K.maxK maxDimension (K.ofQ (1 / 2)) * K.ofQ (3 / 2)
    K.minK calculatedSize (K.ofQ 10)

/-- The stored plane normal, kept symbolically: `unit v` stands for the source
expression `v.normalize()`, `exact v` for a vector returned literally.  Its
real-number value is `NormalSpec.toR` below. -/
inductive NormalSpec
| unit (v : V3)
| exact (v : V3)
deriving DecidableEq, Repr

/-- Embedding of `InterceptCalculator._calculateCubicPlaneNormal(h_for_a, k_for_b, l_for_c)`
called with `(h, k, l)`: builds `Vector3(k_for_b, l_for_c, h_for_a)`, returns
`(0,0,1)` on exactly-zero squared length (unreachable post-validation), else
normalizes. -/
def calculateCubicPlaneNormal (h k l : ℤ) : NormalSpec :=
  let normal : V3 := ⟨K.ofInt k, K.ofInt l, K.ofInt h⟩
  if normal.lengthSq = 0 then .exact ⟨0, 0, 1⟩ else .unit normal

/-- Embedding of `InterceptCalculator._calculateHexagonalPlaneNormal`: raw components
`(h - k/2, k·√3/2, l)`; below the `1e-10` squared-length guard it returns
`(0, 0, sign l)` when `h = 0, k = 0, l ≠ 0` and `(0,0,1)` otherwise, else it
normalizes. -/
def calculateHexagonalPlaneNormal (h k l : ℤ) : NormalSpec :=
  let normal : V3 := ⟨K.ofQ ((h : ℚ) - (k : ℚ) / 2), ⟨0, (k : ℚ) / 2⟩, K.ofInt l⟩
  if K.lt normal.lengthSq epsK then
    if h = 0 ∧ k = 0 ∧ l ≠ 0 then .exact ⟨0, 0, K.ofInt l.sign⟩
    else .exact ⟨0, 0, 1⟩
  else .unit normal

def v3Q (x y z : ℚ) : V3 := ⟨K.ofQ x, K.ofQ y, K.ofQ z⟩

/-- Result record of `_calculateCubicIntercepts` (`parameters` is `(h, k, l)`
plus the `system` tag carried by the `Result` wrapper; `intercepts` is the
`{a, b, c}` record). -/
structure CubicResult where
  x : Option V3
  y : Option V3
  z : Option V3
  normal : NormalSpec
  center : V3
  size : K
  params : ℤ × ℤ × ℤ
  interceptA : Option ℚ
  interceptB : Option ℚ
  interceptC : Option ℚ
deriving DecidableEq, Repr

/-- Result record of `_calculateHexagonalIntercepts`. -/
structure HexResult where
  a1 : Option V3
  a2 : Option V3
  a3 : Option V3
  c : Option V3
  normal : NormalSpec
  center : V3
  size : K
  params : ℤ × ℤ × ℤ × ℤ
  interceptA1 : Option ℚ
  interceptA2 : Option ℚ
  interceptA3 : Option ℚ
  interceptC : Option ℚ
deriving DecidableEq, Repr

/-- Embedding of `InterceptCalculator._calculateCubicIntercepts({h, k, l, system})`:
`interceptA/B/C` are the reciprocals of `h/k/l`; the intersection points are
`x: (interceptB, 0, 0)`, `y: (0, interceptC, 0)`, `z: (0, 0, interceptA)`
(`null`, here `none`, for an infinite intercept); center and size are computed
from `Object.values(intersections) = [x, y, z]`. -/
def calculateCubicIntercepts (h k l : ℤ) : CubicResult :=
  let interceptA := calculateSingleIntercept h
  let interceptB := calculateSingleIntercept k
  let interceptC := calculateSingleIntercept l
  let ix := interceptB.map fun q => v3Q q 0 0
  let iy := interceptC.map fun q => v3Q 0 q 0
  let iz := interceptA.map fun q => v3Q 0 0 q
  { x := ix, y := iy, z := iz
    normal := calculateCubicPlaneNormal h k l
    center := calculatePlaneCenter [ix, iy, iz]
    size := calculatePlaneSize [ix, iy, iz]
    params := (h, k, l)
    interceptA := interceptA, interceptB := interceptB, interceptC := interceptC }

/-- Embedding of `InterceptCalculator._calculateHexagonalIntercepts({h, k, i, l, system})`:
`a1: (iA1, 0, 0)`, `a2: (iA2·(-1/2), iA2·√3/2, 0)`, `a3: (iA3·(-1/2),
iA3·(-√3/2), 0)`, `c: (0, 0, iC)`; center and size from
`Object.values(intersections) = [a1, a2, a3, c]`; normal from `(h, k, l)`. -/
def calculateHexagonalIntercepts (h k i l : ℤ) : HexResult :=
  let interceptA1 := calculateSingleIntercept h
  let interceptA2 := calculateSingleIntercept k
  let interceptA3 := calculateSingleIntercept i
  let interceptC := calculateSingleIntercept l
  let a1 := interceptA1.map fun q => v3Q q 0 0
  let a2 := interceptA2.map fun q => V3.mk (K.ofQ (q * (-1 / 2))) ⟨0, q / 2⟩ 0
  let a3 := interceptA3.map fun q => V3.mk (K.ofQ (q * (-1 / 2))) ⟨0, -(q / 2)⟩ 0
  let c := interceptC.map fun q => v3Q 0 0 q
  { a1 := a1, a2 := a2, a3 := a3, c := c
    normal := calculateHexagonalPlaneNormal h k l
    center := calculatePlaneCenter [a1, a2, a3, c]
    size := calculatePlaneSize [a1, a2, a3, c]
    params := (h, k, i, l)
    interceptA1 := interceptA1, interceptA2 := interceptA2
    interceptA3 := interceptA3, interceptC := interceptC }

/-- The calculation parameters `{h, k, l, system}` / `{h, k, i, l, system}`
as the tagged union recommended by the design notes. -/
inductive Params
| cubic (h k l : ℤ)
| hexagonal (h k i l : ℤ)
deriving DecidableEq, Repr

/-- Embedding of `InterceptCalculator.validateIndices(params)`.  The inputs are integers
here, so the `Number.isInteger` and `Number.isFinite` guards of the source
always pass; the remaining checks, in source order, are the all-zero check
and (hexagonal) the `h + k + i = 0` constraint.  A thrown error is modelled
as `Except.error` with the thrown message. -/
def validateIndices : Params → Except String Unit
| .cubic h k l =>
    if h = 0 ∧ k = 0 ∧ l = 0 then .error "All indices cannot be zero"
    else .ok ()
| .hexagonal h k i l =>
    if h = 0 ∧ k = 0 ∧ i = 0 ∧ l = 0 then .error "All indices cannot be zero"
    else if h + k + i ≠ 0 then .error "Hexagonal indices must satisfy h + k + i = 0."
    else .ok ()

inductive Result
| cub (r : CubicResult)
| hex (r : HexResult)
deriving DecidableEq, Repr

/-- The per-system computation dispatched by `calculateIntercepts` after
validation succeeds. -/
def computePure : Params → Result
| .cubic h k l => .cub (calculateCubicIntercepts h k l)
| .hexagonal h k i l => .hex (calculateHexagonalIntercepts h k i l)

/-- Embedding of `InterceptCalculator._getCacheKey(params)`. -/
def getCacheKey : Params → String
| .cubic h k l => s!"cubic-{h},{k},{l}"
| .hexagonal h k i l => s!"hex-{h},{k},{i},{l}"

/-- The `_cache` Map; entries are only ever inserted by `calculateIntercepts`
with fresh keys, so a key-ordered association list with first-match lookup has
exactly the observable `Map.has`/`get`/`set` behaviour used. -/
abbrev Cache := List (String × Result)

/-- Embedding of `InterceptCalculator.calculateIntercepts(params)`: cache lookup first;
then validation (a validation throw propagates to the caller and nothing is
cached); then the per-system computation, which is stored in the cache.  The
third component reports whether the call was answered from the cache. -/
def calculateIntercepts (cache : Cache) (p : Params) :
    Except String Result × Cache × Bool :=
  let key := getCacheKey p
  match cache.lookup key with
  | some r => (.ok r, cache, true)
  | none =>
    match validateIndices p with
    | .error e => (.error e, cache, false)
    | .ok _ =>
      let r := computePure p
      (.ok r, (key, r) :: cache, false)

/-- Embedding of `CONFIG_UTILS.validateInput(value)` from `src/config.js`, the UI-side
validator holding the range check against `CONFIG.VALIDATION` (`MIN_VALUE =
-99`, `MAX_VALUE = 99`).  For an integer input the NaN and non-integer
branches never fire. -/
def configValidateInput (value : ℤ) : Except String Bool :=
  if value < -99 ∨ 99 < value then
    .error "Value must be between -99 and 99"
  else .ok true

/-! ### Real-number semantics of vectors and `THREE.Vector3.normalize` -/

noncomputable def toRealV3 (v : V3) : ℝ × ℝ × ℝ := (v.x.toReal, v.y.toReal, v.z.toReal)

/-- Euclidean length of a real triple (`Vector3.length()`). -/
noncomputable def norm3 (v : ℝ × ℝ × ℝ) : ℝ := Real.sqrt (v.1 ^ 2 + v.2.1 ^ 2 + v.2.2 ^ 2)

/-- Embedding of `THREE.Vector3.normalize()`: `divideScalar(length || 1)`, so the zero
vector is left unchanged. -/
noncomputable def normalizeR (v : ℝ × ℝ × ℝ) : ℝ × ℝ × ℝ :=
  if norm3 v = 0 then v
  else (v.1 / norm3 v, v.2.1 / norm3 v, v.2.2 / norm3 v)

/-- Real value of a stored normal. -/
noncomputable def NormalSpec.toR : NormalSpec → ℝ × ℝ × ℝ
| .unit v => normalizeR (toRealV3 v)
| .exact v => toRealV3 v

/-- The stored normal of either result kind. -/
def Result.normalSpec : Result → NormalSpec
| .cub r => r.normal
| .hex r => r.normal

/-! ### Shape construction: `MillerVisualizer.createPlane`, cubic branch
(`src/unnamed/part_000`, lines 177–194) -/

/-- Renderable geometry produced by the cubic branch of `createPlane`:
a raw triangle from the three intersection points, an axis-length square
positioned at the single intersection point, or the generic square of
heuristic size positioned at the center. -/
inductive Shape
| triangle (v0 v1 v2 : V3)
| unitFace (center : V3)
| fallbackSquare (size : K) (center : V3)
deriving DecidableEq, Repr

/-- Embedding of `result.size || planeConfig.DEFAULT_SIZE` (`0` is falsy in JS). -/
def jsOrDefaultSize (s : K) : K := if s = 0 then K.ofQ 3 else s

/-- The `params.system === 'cubic'` branch of `createPlane`:
`validCubicIntersects` is `Object.values(intersections)` filtered to actual
points; 3 points give the raw triangle over exactly those points (indexed
`[0, 1, 2]`), 1 point with some zero index gives the axis-aligned unit-cell
face at that point, anything else the generic fallback square. -/
def createPlaneCubic (r : CubicResult) : Shape :=
  match [r.x, r.y, r.z].filterMap id with
  | [p0, p1, p2] => .triangle p0 p1 p2
  | [p0] =>
      if r.params.1 = 0 ∨ r.params.2.1 = 0 ∨ r.params.2.2 = 0 then .unitFace p0
      else .fallbackSquare (jsOrDefaultSize r.size) r.center
  | _ => .fallbackSquare (jsOrDefaultSize r.size) r.center

/-! ### Hexagonal display-frame transform: `MillerVisualizer.visualize`
(`src/unnamed/part_000`, lines 120–141) -/

/-- The visual-frame result object built by `visualize` for the hexagonal
system (`{...rawResult, intersections, normal, center}`). -/
structure DisplayResult where
  c : Option V3
  a1 : Option V3
  a2 : Option V3
  a3 : Option V3
  normalR : ℝ × ℝ × ℝ
  center : V3
  size : K
  params : ℤ × ℤ × ℤ × ℤ

/-- Swap of the second and third coordinates, `(x, y, z) ↦ (x, z, y)`. -/
def swapV (v : V3) : V3 := ⟨v.x, v.z, v.y⟩

def swapR (v : ℝ × ℝ × ℝ) : ℝ × ℝ × ℝ := (v.1, v.2.2, v.2.1)

/-- The hexagonal branch of `visualize`: rebuilds each intersection point in
visual coordinates (`c ↦ (0, c.z, 0)`, `a1 ↦ (a1.x, 0, 0)`,
`a2/a3 ↦ (p.x, 0, p.y)`), takes `Vector3(n.x, n.z, n.y).normalize()` as the
visual normal, averages the transformed points for the center (falling back
to the component-swapped raw center when none exist), and spreads the rest of
the raw result (size, parameters) unchanged. -/
noncomputable def toDisplayFrame (r : HexResult) : DisplayResult :=
  let tc := r.c.map fun p => V3.mk 0 p.z 0
  let ta1 := r.a1.map fun p => V3.mk p.x 0 0
  let ta2 := r.a2.map fun p => V3.mk p.x 0 p.y
  let ta3 := r.a3.map fun p => V3.mk p.x 0 p.y
  let tn := normalizeR (swapR r.normal.toR)
  let valid := [tc, ta1, ta2, ta3].filterMap id
  let tCenter :=
    if 0 < valid.length then meanV valid
    else V3.mk r.center.x r.center.z r.center.y
  { c := tc, a1 := ta1, a2 := ta2, a3 := ta3, normalR := tn, center := tCenter
    size := r.size, params := r.params }

/-! ### Helper lemmas -/

@[simp] theorem K.toReal_ofQ (q : ℚ) : (K.ofQ q).toReal = (q : ℝ) := by
  unfold K.toReal; simp [K.ofQ]

@[simp] theorem K.toReal_ofInt (n : ℤ) : (K.ofInt n).toReal = (n : ℝ) := by
  unfold K.toReal; simp [K.ofInt]

@[simp] theorem K.toReal_zero : (0 : K).toReal = 0 := by
  unfold K.toReal; norm_num

@[simp] theorem K.toReal_one : (1 : K).toReal = 1 := by
  have : (1 : K) = K.ofQ 1 := rfl
  rw [this, K.toReal_ofQ]; norm_num

@[simp] theorem K.toReal_sqrtPart (b : ℚ) : (K.mk 0 b).toReal = (b : ℝ) * Real.sqrt 3 := by
  unfold K.toReal; simp

theorem norm3_nonneg (v : ℝ × ℝ × ℝ) : 0 ≤ norm3 v := Real.sqrt_nonneg _

theorem norm3_eq_zero_iff (v : ℝ × ℝ × ℝ) :
    norm3 v = 0 ↔ v.1 = 0 ∧ v.2.1 = 0 ∧ v.2.2 = 0 := by
  unfold norm3
  rw [Real.sqrt_eq_zero (by positivity)]
  constructor
  · intro hz
    have h1 : v.1 ^ 2 = 0 := by nlinarith [sq_nonneg v.1, sq_nonneg v.2.1, sq_nonneg v.2.2]
    have h2 : v.2.1 ^ 2 = 0 := by nlinarith [sq_nonneg v.1, sq_nonneg v.2.1, sq_nonneg v.2.2]
    have h3 : v.2.2 ^ 2 = 0 := by nlinarith [sq_nonneg v.1, sq_nonneg v.2.1, sq_nonneg v.2.2]
    exact ⟨by nlinarith, by nlinarith, by nlinarith⟩
  · rintro ⟨h1, h2, h3⟩
    rw [h1, h2, h3]; norm_num

theorem norm3_normalizeR (v : ℝ × ℝ × ℝ) (hne : norm3 v ≠ 0) :
    norm3 (normalizeR v) = 1 := by
  have hpos : 0 < norm3 v := lt_of_le_of_ne (norm3_nonneg v) (Ne.symm hne)
  have hsq : norm3 v ^ 2 = v.1 ^ 2 + v.2.1 ^ 2 + v.2.2 ^ 2 := Real.sq_sqrt (by positivity)
  have key : (v.1 / norm3 v) ^ 2 + (v.2.1 / norm3 v) ^ 2 + (v.2.2 / norm3 v) ^ 2 = 1 := by
    rw [div_pow, div_pow, div_pow, div_add_div_same, div_add_div_same, ← hsq]
    exact div_self (pow_ne_zero 2 hne)
  rw [normalizeR, if_neg hne]
  show Real.sqrt ((v.1 / norm3 v) ^ 2 + (v.2.1 / norm3 v) ^ 2 + (v.2.2 / norm3 v) ^ 2) = 1
  rw [key]
  exact Real.sqrt_one

theorem normalizeR_of_norm_one (v : ℝ × ℝ × ℝ) (hone : norm3 v = 1) :
    normalizeR v = v := by
  rw [normalizeR, if_neg (by rw [hone]; norm_num), hone]
  simp

theorem norm3_swapR (v : ℝ × ℝ × ℝ) : norm3 (swapR v) = norm3 v := by
  unfold norm3 swapR
  ring_nf

/-- Squared length of the raw cubic normal vector `(k, l, h)`. -/
theorem cubic_lengthSq (h k l : ℤ) :
    (V3.mk (K.ofInt k) (K.ofInt l) (K.ofInt h)).lengthSq
      = K.ofQ ((k : ℚ) ^ 2 + (l : ℚ) ^ 2 + (h : ℚ) ^ 2) := by
  simp only [V3.lengthSq, K.eq_iff_parts, K.add_a, K.add_b, K.mul_a, K.mul_b, K.ofInt_a,
    K.ofInt_b, K.ofQ_a, K.ofQ_b]
  constructor <;> ring

/-- Squared length of the raw hexagonal normal `(h - k/2, (k/2)√3, l)`:
the rational quadratic form `h² - hk + k² + l²`. -/
theorem hex_lengthSq (h k l : ℤ) :
    (V3.mk (K.ofQ ((h : ℚ) - (k : ℚ) / 2)) ⟨0, (k : ℚ) / 2⟩ (K.ofInt l)).lengthSq
      = K.ofQ ((h : ℚ) ^ 2 - h * k + k ^ 2 + l ^ 2) := by
  simp only [V3.lengthSq, K.eq_iff_parts, K.add_a, K.add_b, K.mul_a, K.mul_b, K.ofInt_a,
    K.ofInt_b, K.ofQ_a, K.ofQ_b]
  constructor <;> ring

/-- The integer quadratic form `h² - hk + k² + l²` is at least 1 unless
`h = k = l = 0`. -/
theorem hexQF_ge_one (h k l : ℤ) (hne : ¬(h = 0 ∧ k = 0 ∧ l = 0)) :
    1 ≤ h ^ 2 - h * k + k ^ 2 + l ^ 2 := by
  have h4 : 4 * (h ^ 2 - h * k + k ^ 2 + l ^ 2) = (2 * h - k) ^ 2 + 3 * k ^ 2 + 4 * l ^ 2 := by
    ring
  rcases lt_or_le (h ^ 2 - h * k + k ^ 2 + l ^ 2) 1 with hlt | hge
  · exfalso
    have hh : (2 * h - k) ^ 2 + 3 * k ^ 2 + 4 * l ^ 2 ≤ 0 := by omega
    have hk0 : k = 0 := by nlinarith [sq_nonneg (2 * h - k), sq_nonneg k, sq_nonneg l]
    have hl0 : l = 0 := by nlinarith [sq_nonneg (2 * h - k), sq_nonneg k, sq_nonneg l]
    have hh0 : h = 0 := by subst hk0; nlinarith [sq_nonneg (2 * h), sq_nonneg l]
    exact hne ⟨hh0, hk0, hl0⟩
  · exact hge

/-- Post-validation, the cubic normal is built by the `normalize()` branch. -/
theorem calculateCubicPlaneNormal_eq (h k l : ℤ) (hne : ¬(h = 0 ∧ k = 0 ∧ l = 0)) :
    calculateCubicPlaneNormal h k l = .unit ⟨K.ofInt k, K.ofInt l, K.ofInt h⟩ := by
  unfold calculateCubicPlaneNormal
  rw [if_neg]
  rw [cubic_lengthSq]
  intro heq
  have hq : (k : ℚ) ^ 2 + (l : ℚ) ^ 2 + (h : ℚ) ^ 2 = 0 := by
    have := (K.eq_iff_parts.mp heq).1
    simpa using this
  have hk : (k : ℚ) = 0 := by nlinarith [sq_nonneg (k : ℚ), sq_nonneg (l : ℚ), sq_nonneg (h : ℚ)]
  have hl : (l : ℚ) = 0 := by nlinarith [sq_nonneg (k : ℚ), sq_nonneg (l : ℚ), sq_nonneg (h : ℚ)]
  have hh : (h : ℚ) = 0 := by nlinarith [sq_nonneg (k : ℚ), sq_nonneg (l : ℚ), sq_nonneg (h : ℚ)]
  exact hne ⟨by exact_mod_cast hh, by exact_mod_cast hk, by exact_mod_cast hl⟩

/-- Post-validation (`(h, k, l) ≠ 0`), the hexagonal `1e-10` guard fails and
the normal is built by the `normalize()` branch; in particular the in-guard
`(0, 0, sign l)` special case is never reached for integer indices. -/
theorem calculateHexagonalPlaneNormal_eq (h k l : ℤ) (hne : ¬(h = 0 ∧ k = 0 ∧ l = 0)) :
    calculateHexagonalPlaneNormal h k l
      = .unit ⟨K.ofQ ((h : ℚ) - (k : ℚ) / 2), ⟨0, (k : ℚ) / 2⟩, K.ofInt l⟩ := by
  unfold calculateHexagonalPlaneNormal
  rw [if_neg]
  intro hlt
  apply hlt
  rw [hex_lengthSq]
  left
  constructor
  · have hq : (1 : ℚ) ≤ (h : ℚ) ^ 2 - h * k + k ^ 2 + l ^ 2 := by
      exact_mod_cast hexQF_ge_one h k l hne
    simp only [K.sub_a, K.ofQ_a]
    have : epsQ < 1 := by norm_num [epsQ]
    simp only [epsK, K.ofQ_a]
    linarith
  · simp [epsK]

theorem validate_cubic_iff (h k l : ℤ) :
    validateIndices (.cubic h k l) = .ok () ↔ ¬(h = 0 ∧ k = 0 ∧ l = 0) := by
  simp only [validateIndices]
  split_ifs with hc <;> simp_all

theorem validate_hex_iff (h k i l : ℤ) :
    validateIndices (.hexagonal h k i l) = .ok ()
      ↔ ¬(h = 0 ∧ k = 0 ∧ i = 0 ∧ l = 0) ∧ h + k + i = 0 := by
  simp only [validateIndices]
  split_ifs with h1 h2 <;> simp_all

/-- A valid hexagonal index set cannot have `h = k = l = 0` (then `i = 0` too,
violating the all-zero rule). -/
theorem hex_hkl_ne_zero {h k i l : ℤ} (hz : ¬(h = 0 ∧ k = 0 ∧ i = 0 ∧ l = 0))
    (hsum : h + k + i = 0) : ¬(h = 0 ∧ k = 0 ∧ l = 0) := by
  rintro ⟨rfl, rfl, rfl⟩
  exact hz ⟨rfl, rfl, by omega, rfl⟩

theorem cubicNormal_norm_one (h k l : ℤ) (hne : ¬(h = 0 ∧ k = 0 ∧ l = 0)) :
    norm3 (calculateCubicPlaneNormal h k l).toR = 1 := by
  rw [calculateCubicPlaneNormal_eq h k l hne]
  apply norm3_normalizeR
  rw [Ne, norm3_eq_zero_iff]
  rintro ⟨h1, h2, h3⟩
  simp only [toRealV3, K.toReal_ofInt, Int.cast_eq_zero] at h1 h2 h3
  exact hne ⟨h3, h1, h2⟩

theorem hexNormal_norm_one (h k l : ℤ) (hne : ¬(h = 0 ∧ k = 0 ∧ l = 0)) :
    norm3 (calculateHexagonalPlaneNormal h k l).toR = 1 := by
  rw [calculateHexagonalPlaneNormal_eq h k l hne]
  apply norm3_normalizeR
  rw [Ne, norm3_eq_zero_iff]
  rintro ⟨h1, h2, h3⟩
  simp only [toRealV3, K.toReal_ofQ, K.toReal_ofInt, K.toReal_sqrtPart, Int.cast_eq_zero,
    mul_eq_zero] at h1 h2 h3
  rcases h2 with h2 | h2
  · have hk2 : ((k : ℚ) / 2) = 0 := by exact_mod_cast h2
    have hk : (k : ℚ) = 0 := by linarith
    have hq1 : (h : ℚ) - (k : ℚ) / 2 = 0 := by exact_mod_cast h1
    have hh : (h : ℚ) = 0 := by linarith
    exact hne ⟨by exact_mod_cast hh, by exact_mod_cast hk, h3⟩
  · exact absurd h2 (by positivity)

theorem normalizeR_zaxis (l : ℤ) (hl : l ≠ 0) :
    normalizeR (0, 0, (l : ℝ)) = (0, 0, (l.sign : ℝ)) := by
  have hn : norm3 (0, 0, (l : ℝ)) = |(l : ℝ)| := by
    unfold norm3
    simp only []
    rw [show (0:ℝ) ^ 2 + (0:ℝ) ^ 2 + (l : ℝ) ^ 2 = (l : ℝ) ^ 2 by ring]
    exact Real.sqrt_sq_eq_abs _
  have habs : |(l : ℝ)| ≠ 0 := by
    simp only [ne_eq, abs_eq_zero, Int.cast_eq_zero]
    exact hl
  rw [normalizeR, if_neg (by rw [hn]; exact habs), hn]
  have hdiv : (l : ℝ) / |(l : ℝ)| = (l.sign : ℝ) := by
    rcases lt_trichotomy l 0 with hneg | hzero | hpos
    · rw [abs_of_neg (by exact_mod_cast hneg), Int.sign_eq_neg_one_of_neg hneg]
      have : (l : ℝ) ≠ 0 := by exact_mod_cast hl
      field_simp
    · exact absurd hzero hl
    · rw [abs_of_pos (by exact_mod_cast hpos), Int.sign_eq_one_of_pos hpos]
      have : (l : ℝ) ≠ 0 := by exact_mod_cast hl
      field_simp
  simp only [zero_div, hdiv]

/-- The `(0, 0, l)` raw hexagonal normal realizes to the real z-axis vector. -/
theorem hex_raw_zaxis (l : ℤ) :
    toRealV3 ⟨K.ofQ ((0 : ℚ) - (0 : ℚ) / 2), ⟨0, (0 : ℚ) / 2⟩, K.ofInt l⟩
      = (0, 0, (l : ℝ)) := by
  simp [toRealV3]

/--
C7. For every index set accepted by validation (cubic or hexagonal), the
normal vector in the result returned by the engine has unit Euclidean length;
this holds on every branch, and in the hexagonal case `h = 0, k = 0, l ≠ 0`
the normal equals `(0, 0, sign l)`.
-/
theorem claim_C7_normal_unit_length (p : Params) (hv : validateIndices p = .ok ()) :
    norm3 (computePure p).normalSpec.toR = 1 ∧
    (∀ i l : ℤ, l ≠ 0 → p = .hexagonal 0 0 i l →
      (computePure p).normalSpec.toR = (0, 0, (l.sign : ℝ))) := by
  constructor
  · cases p with
    | cubic h k l =>
        have hne := (validate_cubic_iff h k l).mp hv
        simpa [computePure, calculateCubicIntercepts, Result.normalSpec] using
          cubicNormal_norm_one h k l hne
    | hexagonal h k i l =>
        obtain ⟨hz, hsum⟩ := (validate_hex_iff h k i l).mp hv
        have hne := hex_hkl_ne_zero hz hsum
        simpa [computePure, calculateHexagonalIntercepts, Result.normalSpec] using
          hexNormal_norm_one h k l hne
  · rintro i l hl rfl
    show (calculateHexagonalPlaneNormal 0 0 l).toR = (0, 0, (l.sign : ℝ))
    rw [calculateHexagonalPlaneNormal_eq 0 0 l (by simp [hl])]
    show normalizeR (toRealV3 _) = _
    rw [show ((0 : ℤ) : ℚ) = (0 : ℚ) by norm_num] at *
    rw [hex_raw_zaxis l, normalizeR_zaxis l hl]

/-- Witness for C7 at the hexagonal basal plane `(0, 0, 0, 2)`. -/
theorem claim_C7_normal_unit_length_witness :
    validateIndices (.hexagonal 0 0 0 2) = .ok () ∧
    (norm3 (computePure (.hexagonal 0 0 0 2)).normalSpec.toR = 1 ∧
     (∀ i l : ℤ, l ≠ 0 → Params.hexagonal 0 0 0 2 = .hexagonal 0 0 i l →
       (computePure (.hexagonal 0 0 0 2)).normalSpec.toR = (0, 0, (l.sign : ℝ)))) :=
  ⟨rfl, claim_C7_normal_unit_length (.hexagonal 0 0 0 2) rfl⟩

theorem calculateSingleIntercept_of_ne (n : ℤ) (hn : n ≠ 0) :
    calculateSingleIntercept n = some (1 / (n : ℚ)) := by
  unfold calculateSingleIntercept
  rw [if_neg]
  intro habs
  rw [jsAbs_eq_abs] at habs
  have h1 : (1 : ℚ) ≤ |(n : ℚ)| := by
    rw [← Int.cast_abs]
    exact_mod_cast Int.one_le_abs (by omega)
  have h2 : epsQ < 1 := by norm_num [epsQ]
  linarith

theorem calculateSingleIntercept_zero : calculateSingleIntercept 0 = none := by
  unfold calculateSingleIntercept
  rw [if_pos]
  norm_num [jsAbs, epsQ]

/--
C1 counterexample. The claim "whenever `h` is nonzero the x-axis
intersection point is `(1/h, 0, 0)`" fails at the valid cubic index set
`(1, 2, 3)`: there `h = 1 ≠ 0` but the x-entry of the intersections mapping
is `(1/2, 0, 0) = (1/k, 0, 0)`, not `(1/1, 0, 0)`.
-/
theorem claim_C1_counterexample :
    (1 : ℤ) ≠ 0 ∧
    validateIndices (.cubic 1 2 3) = .ok () ∧
    (calculateCubicIntercepts 1 2 3).x ≠ some (v3Q (1 / ((1 : ℤ) : ℚ)) 0 0) := by
  refine ⟨by decide, rfl, ?_⟩
  have hx : (calculateCubicIntercepts 1 2 3).x = some (v3Q (1 / ((2 : ℤ) : ℚ)) 0 0) := by
    simp [calculateCubicIntercepts, calculateSingleIntercept_of_ne]
  rw [hx]
  intro hc
  have := Option.some.inj hc
  have h2 : (1 / ((2 : ℤ) : ℚ)) = (1 / ((1 : ℤ) : ℚ)) := congrArg (fun v => V3.x v |>.a) this
  norm_num at h2

/--
C1 (amended). The cubic axis-to-direction convention of the engine is
index 1 ↔ direction Z, index 2 ↔ direction X, index 3 ↔ direction Y: for a
valid cubic index set, whenever `h ≠ 0` the z-axis intersection point is
`(0, 0, 1/h)`, whenever `k ≠ 0` the x-axis intersection point is
`(1/k, 0, 0)`, and whenever `l ≠ 0` the y-axis intersection point is
`(0, 1/l, 0)`.
-/
theorem claim_C1_axis_convention (h k l : ℤ)
    (_hv : validateIndices (.cubic h k l) = .ok ()) :
    (h ≠ 0 → (calculateCubicIntercepts h k l).z = some (v3Q 0 0 (1 / (h : ℚ)))) ∧
    (k ≠ 0 → (calculateCubicIntercepts h k l).x = some (v3Q (1 / (k : ℚ)) 0 0)) ∧
    (l ≠ 0 → (calculateCubicIntercepts h k l).y = some (v3Q 0 (1 / (l : ℚ)) 0)) := by
  refine ⟨fun hh => ?_, fun hk => ?_, fun hl => ?_⟩
  · simp [calculateCubicIntercepts, calculateSingleIntercept_of_ne h hh]
  · simp [calculateCubicIntercepts, calculateSingleIntercept_of_ne k hk]
  · simp [calculateCubicIntercepts, calculateSingleIntercept_of_ne l hl]

/-- Witness for the amended C1 at the cubic set `(1, 2, 4)`. -/
theorem claim_C1_axis_convention_witness :
    validateIndices (.cubic 1 2 4) = .ok () ∧
    (((1 : ℤ) ≠ 0 → (calculateCubicIntercepts 1 2 4).z = some (v3Q 0 0 (1 / ((1 : ℤ) : ℚ)))) ∧
     ((2 : ℤ) ≠ 0 → (calculateCubicIntercepts 1 2 4).x = some (v3Q (1 / ((2 : ℤ) : ℚ)) 0 0)) ∧
     ((4 : ℤ) ≠ 0 → (calculateCubicIntercepts 1 2 4).y = some (v3Q 0 (1 / ((4 : ℤ) : ℚ)) 0))) :=
  ⟨rfl, claim_C1_axis_convention 1 2 4 rfl⟩

/--
C8. A zero index component always yields an infinite intercept
(`calculateSingleIntercept 0 = none`) and the corresponding entry of the
intersections mapping is the no-point sentinel `null` (`none`), in both
crystal systems (cubic: `h ↔ z`, `k ↔ x`, `l ↔ y`; hexagonal: `h ↔ a1`,
`k ↔ a2`, `i ↔ a3`, `l ↔ c`).
-/
theorem claim_C8_zero_index_no_point :
    calculateSingleIntercept 0 = none ∧
    (∀ h k l : ℤ, validateIndices (.cubic h k l) = .ok () →
      (h = 0 → (calculateCubicIntercepts h k l).z = none) ∧
      (k = 0 → (calculateCubicIntercepts h k l).x = none) ∧
      (l = 0 → (calculateCubicIntercepts h k l).y = none)) ∧
    (∀ h k i l : ℤ, validateIndices (.hexagonal h k i l) = .ok () →
      (h = 0 → (calculateHexagonalIntercepts h k i l).a1 = none) ∧
      (k = 0 → (calculateHexagonalIntercepts h k i l).a2 = none) ∧
      (i = 0 → (calculateHexagonalIntercepts h k i l).a3 = none) ∧
      (l = 0 → (calculateHexagonalIntercepts h k i l).c = none)) := by
  refine ⟨calculateSingleIntercept_zero, fun h k l _ => ⟨?_, ?_, ?_⟩,
    fun h k i l _ => ⟨?_, ?_, ?_, ?_⟩⟩ <;>
    rintro rfl <;>
    simp [calculateCubicIntercepts, calculateHexagonalIntercepts,
      calculateSingleIntercept_zero]

/-- Witness for C8 at cubic `(0, 1, 1)` and hexagonal `(1, 0, -1, 0)`. -/
theorem claim_C8_zero_index_no_point_witness :
    (validateIndices (.cubic 0 1 1) = .ok () ∧
      (calculateCubicIntercepts 0 1 1).z = none) ∧
    (validateIndices (.hexagonal 1 0 (-1) 0) = .ok () ∧
      (calculateHexagonalIntercepts 1 0 (-1) 0).c = none) := by
  have hvc : validateIndices (.cubic 0 1 1) = .ok () := rfl
  have hvh : validateIndices (.hexagonal 1 0 (-1) 0) = .ok () := rfl
  exact ⟨⟨hvc, (claim_C8_zero_index_no_point.2.1 0 1 1 hvc).1 rfl⟩,
    ⟨hvh, (claim_C8_zero_index_no_point.2.2 1 0 (-1) 0 hvh).2.2.2 rfl⟩⟩

/--
C4. For every valid cubic index set with all three components nonzero,
the engine returns exactly 3 finite intersection points, and the cubic branch
of `createPlane` builds a single triangle whose three vertices are exactly
those 3 intersection points.
-/
theorem claim_C4_cubic_triangle (h k l : ℤ) (hh : h ≠ 0) (hk : k ≠ 0) (hl : l ≠ 0) :
    validateIndices (.cubic h k l) = .ok () ∧
    (calculateCubicIntercepts h k l).x = some (v3Q (1 / (k : ℚ)) 0 0) ∧
    (calculateCubicIntercepts h k l).y = some (v3Q 0 (1 / (l : ℚ)) 0) ∧
    (calculateCubicIntercepts h k l).z = some (v3Q 0 0 (1 / (h : ℚ))) ∧
    ([(calculateCubicIntercepts h k l).x, (calculateCubicIntercepts h k l).y,
      (calculateCubicIntercepts h k l).z].filterMap id).length = 3 ∧
    createPlaneCubic (calculateCubicIntercepts h k l)
      = .triangle (v3Q (1 / (k : ℚ)) 0 0) (v3Q 0 (1 / (l : ℚ)) 0) (v3Q 0 0 (1 / (h : ℚ))) := by
  have hx : (calculateCubicIntercepts h k l).x = some (v3Q (1 / (k : ℚ)) 0 0) := by
    simp [calculateCubicIntercepts, calculateSingleIntercept_of_ne, hk]
  have hy : (calculateCubicIntercepts h k l).y = some (v3Q 0 (1 / (l : ℚ)) 0) := by
    simp [calculateCubicIntercepts, calculateSingleIntercept_of_ne, hl]
  have hz : (calculateCubicIntercepts h k l).z = some (v3Q 0 0 (1 / (h : ℚ))) := by
    simp [calculateCubicIntercepts, calculateSingleIntercept_of_ne, hh]
  refine ⟨(validate_cubic_iff h k l).mpr (by tauto), hx, hy, hz, ?_, ?_⟩
  · rw [hx, hy, hz]; rfl
  · rw [createPlaneCubic, hx, hy, hz]; rfl

/-- Witness for C4 at the cubic set `(1, 2, 3)`. -/
theorem claim_C4_cubic_triangle_witness :
    validateIndices (.cubic 1 2 3) = .ok () ∧
    (calculateCubicIntercepts 1 2 3).x = some (v3Q (1 / ((2 : ℤ) : ℚ)) 0 0) ∧
    (calculateCubicIntercepts 1 2 3).y = some (v3Q 0 (1 / ((3 : ℤ) : ℚ)) 0) ∧
    (calculateCubicIntercepts 1 2 3).z = some (v3Q 0 0 (1 / ((1 : ℤ) : ℚ))) ∧
    ([(calculateCubicIntercepts 1 2 3).x, (calculateCubicIntercepts 1 2 3).y,
      (calculateCubicIntercepts 1 2 3).z].filterMap id).length = 3 ∧
    createPlaneCubic (calculateCubicIntercepts 1 2 3)
      = .triangle (v3Q (1 / ((2 : ℤ) : ℚ)) 0 0) (v3Q 0 (1 / ((3 : ℤ) : ℚ)) 0)
          (v3Q 0 0 (1 / ((1 : ℤ) : ℚ))) :=
  claim_C4_cubic_triangle 1 2 3 (by decide) (by decide) (by decide)

/--
C5. For every hexagonal index set of (finite) integers with
`h + k + i ≠ 0`, `calculateIntercepts` fails with the constraint-violation
error and returns no result; the cache is left unchanged and nothing is
inserted.  (The cache-miss hypothesis always holds in reachable states, since
only successfully validated computations are ever cached.)
-/
theorem claim_C5_hex_constraint_violation (h k i l : ℤ) (cache : Cache)
    (hsum : h + k + i ≠ 0)
    (hkey : cache.lookup (getCacheKey (.hexagonal h k i l)) = none) :
    calculateIntercepts cache (.hexagonal h k i l)
      = (.error "Hexagonal indices must satisfy h + k + i = 0.", cache, false) := by
  have hz : ¬(h = 0 ∧ k = 0 ∧ i = 0 ∧ l = 0) := by
    rintro ⟨rfl, rfl, rfl, rfl⟩
    exact hsum (by norm_num)
  have hv : validateIndices (.hexagonal h k i l)
      = .error "Hexagonal indices must satisfy h + k + i = 0." := by
    simp only [validateIndices]
    rw [if_neg hz, if_pos hsum]
  simp only [calculateIntercepts, hkey, hv]

/-- Witness for C5 at `(1, 1, 0, 0)` (the spec's Scenario F) on a fresh cache. -/
theorem claim_C5_hex_constraint_violation_witness :
    (1 : ℤ) + 1 + 0 ≠ 0 ∧
    (List.lookup (getCacheKey (.hexagonal 1 1 0 0)) ([] : Cache) = none) ∧
    calculateIntercepts [] (.hexagonal 1 1 0 0)
      = (.error "Hexagonal indices must satisfy h + k + i = 0.", [], false) :=
  ⟨by decide, rfl, claim_C5_hex_constraint_violation 1 1 0 0 [] (by decide) rfl⟩

/--
C9. `calculateIntercepts` is deterministic and memoized: after any call
with a valid index set, repeating the call with equal parameters on the
resulting engine state returns the same value, leaves the cache unchanged,
and is answered from the cache (keyed by the canonical `(system, indices)`
string) without recomputing.
-/
theorem claim_C9_memoized (p : Params) (c0 : Cache)
    (hv : validateIndices p = .ok ()) :
    (calculateIntercepts (calculateIntercepts c0 p).2.1 p).1
        = (calculateIntercepts c0 p).1 ∧
    (calculateIntercepts (calculateIntercepts c0 p).2.1 p).2.1
        = (calculateIntercepts c0 p).2.1 ∧
    (calculateIntercepts (calculateIntercepts c0 p).2.1 p).2.2 = true := by
  cases hc : c0.lookup (getCacheKey p) with
  | some r =>
      have h1 : calculateIntercepts c0 p = (.ok r, c0, true) := by
        simp only [calculateIntercepts, hc]
      rw [h1]
      simp only [calculateIntercepts, hc]
      exact ⟨trivial, trivial, trivial⟩
  | none =>
      have h1 : calculateIntercepts c0 p
          = (.ok (computePure p), (getCacheKey p, computePure p) :: c0, false) := by
        simp only [calculateIntercepts, hc, hv]
      rw [h1]
      have h2 : ((getCacheKey p, computePure p) :: c0).lookup (getCacheKey p)
          = some (computePure p) := by
        simp [List.lookup]
      simp only [calculateIntercepts, h2]
      exact ⟨trivial, trivial, trivial⟩

/-- Witness for C9 at cubic `(1, 1, 1)` on a fresh cache. -/
theorem claim_C9_memoized_witness :
    validateIndices (.cubic 1 1 1) = .ok () ∧
    ((calculateIntercepts (calculateIntercepts [] (.cubic 1 1 1)).2.1 (.cubic 1 1 1)).1
        = (calculateIntercepts [] (.cubic 1 1 1)).1 ∧
     (calculateIntercepts (calculateIntercepts [] (.cubic 1 1 1)).2.1 (.cubic 1 1 1)).2.1
        = (calculateIntercepts [] (.cubic 1 1 1)).2.1 ∧
     (calculateIntercepts (calculateIntercepts [] (.cubic 1 1 1)).2.1 (.cubic 1 1 1)).2.2
        = true) :=
  ⟨rfl, claim_C9_memoized (.cubic 1 1 1) [] rfl⟩

/--
C2 counterexample. The claim "an index component outside `[-99, 99]`
makes `compute` fail with a range error" is false of the engine: the engine's
`validateIndices` performs no range check, so `calculateIntercepts` on the
cubic set `(100, 1, 1)` (with `100 > 99`) succeeds and returns a result.
-/
theorem claim_C2_counterexample :
    ((99 : ℤ) < 100) ∧
    validateIndices (.cubic 100 1 1) = .ok () ∧
    (calculateIntercepts [] (.cubic 100 1 1)).1 = .ok (computePure (.cubic 100 1 1)) := by
  refine ⟨by decide, rfl, ?_⟩
  rfl

/--
C2 (amended). The inclusive range `[-99, 99]` is enforced only by the
UI-side `CONFIG_UTILS.validateInput`, which fails with a range error naming
the bounds for any out-of-range integer; the engine's `validateIndices`
accepts every not-all-zero integer index set (hexagonal additionally
requiring `h + k + i = 0`) regardless of range, so `compute` does not fail
on out-of-range components.
-/
theorem claim_C2_range_check_in_ui (v h k l h2 k2 i2 l2 : ℤ)
    (hrange : v < -99 ∨ 99 < v)
    (hcub : ¬(h = 0 ∧ k = 0 ∧ l = 0))
    (hhz : ¬(h2 = 0 ∧ k2 = 0 ∧ i2 = 0 ∧ l2 = 0)) (hhs : h2 + k2 + i2 = 0) :
    configValidateInput v = .error "Value must be between -99 and 99" ∧
    validateIndices (.cubic h k l) = .ok () ∧
    validateIndices (.hexagonal h2 k2 i2 l2) = .ok () := by
  refine ⟨?_, (validate_cubic_iff h k l).mpr hcub,
    (validate_hex_iff h2 k2 i2 l2).mpr ⟨hhz, hhs⟩⟩
  unfold configValidateInput
  rw [if_pos hrange]

/-- Witness for the amended C2 at `v = 100`, cubic `(100, 1, 1)`, hexagonal
`(100, -100, 0, 2)`. -/
theorem claim_C2_range_check_in_ui_witness :
    ((100 : ℤ) < -99 ∨ (99 : ℤ) < 100) ∧
    (configValidateInput 100 = .error "Value must be between -99 and 99" ∧
     validateIndices (.cubic 100 1 1) = .ok () ∧
     validateIndices (.hexagonal 100 (-100) 0 2) = .ok ()) :=
  ⟨by decide,
   claim_C2_range_check_in_ui 100 100 1 1 100 (-100) 0 2 (by decide) (by decide)
     (by decide) (by decide)⟩

def Result.size : Result → K
| .cub r => r.size
| .hex r => r.size

def Result.center : Result → V3
| .cub r => r.center
| .hex r => r.center

/-- Embedding of `Object.values(result.intersections)`, in the source's insertion order. -/
def Result.intersectionList : Result → List (Option V3)
| .cub r => [r.x, r.y, r.z]
| .hex r => [r.a1, r.a2, r.a3, r.c]

/-- Written from the spec's wording for C3: the largest dimension of the
axis-aligned bounding box of the origin together with the finite intersection
points, multiplied by the fixed visual scale factor `1.5`, clamped to lie
within `[minimum 0.75, configured maximum 10]`; with fewer than 2 finite
points, the fixed default size `3` scaled up to `4.5`. -/
def specPlaneSize (pts : List (Option V3)) : K :=
  let valid := pts.filterMap id
  if valid.length ≤ 1 then K.ofQ (9 / 2)
  else
    let boxPts := (0 : V3) :: valid
    let maxDimension := K.maxK (K.maxK (bboxExtent boxPts (·.x)) (bboxExtent boxPts (·.y)))
      (bboxExtent boxPts (·.z))
    K.minK (K.maxK (K.smul (3 / 2) maxDimension) (K.ofQ (3 / 4))) (K.ofQ 10)

theorem smul_ofQ_half : K.smul (3 / 2) (K.ofQ (1 / 2)) = K.ofQ (3 / 4) := by
  simp [K.eq_iff_parts]
  norm_num

/-- The engine's `max(maxDimension, 0.5) * 1.5` followed by `min(·, 10)` is
exactly the claim's "multiply by 1.5, clamp to `[0.75, 10]`". -/
theorem planeSize_eq_spec (pts : List (Option V3)) :
    calculatePlaneSize pts = specPlaneSize pts := by
  unfold calculatePlaneSize specPlaneSize
  by_cases hlen : (pts.filterMap id).length ≤ 1
  · simp only [hlen, if_pos, if_true]
    norm_num
  · simp only [hlen, if_neg, if_false]
    rw [K.mul_ofQ, K.smul_maxK (by norm_num : (0 : ℚ) < 3 / 2), smul_ofQ_half]

/--
C3. For every valid index set, the size of the computed result equals the
largest dimension of the axis-aligned bounding box of the origin together
with the finite intersection points, multiplied by the fixed visual scale
factor 1.5 and clamped to lie within `[0.75, 10]` (minimum, configured
`PLANE.MAX_SIZE`); when fewer than 2 intersection points are finite, the size
instead equals the fixed default size `3` scaled up to `4.5`.
-/
theorem claim_C3_plane_size (p : Params) (hv : validateIndices p = .ok ()) :
    (computePure p).size = specPlaneSize (computePure p).intersectionList := by
  cases p with
  | cubic h k l => exact planeSize_eq_spec _
  | hexagonal h k i l => exact planeSize_eq_spec _

/-- Witness for C3 at cubic `(1, 1, 1)`. -/
theorem claim_C3_plane_size_witness :
    validateIndices (.cubic 1 1 1) = .ok () ∧
    (computePure (.cubic 1 1 1)).size
      = specPlaneSize (computePure (.cubic 1 1 1)).intersectionList :=
  ⟨rfl, claim_C3_plane_size (.cubic 1 1 1) rfl⟩

theorem V3.eq_iff_coords {u v : V3} : u = v ↔ u.x = v.x ∧ u.y = v.y ∧ u.z = v.z := by
  constructor
  · rintro rfl; exact ⟨rfl, rfl, rfl⟩
  · rcases u with ⟨ux, uy, uz⟩; rcases v with ⟨vx, vy, vz⟩
    rintro ⟨h1, h2, h3⟩; simp_all

theorem calculateSingleIntercept_eq_none_iff (n : ℤ) :
    calculateSingleIntercept n = none ↔ n = 0 := by
  constructor
  · intro hnone
    by_contra hn
    rw [calculateSingleIntercept_of_ne n hn] at hnone
    exact Option.noConfusion hnone
  · rintro rfl
    exact calculateSingleIntercept_zero

theorem filterMap_id_length_pos {l : List (Option V3)} {o : Option V3}
    (hmem : o ∈ l) (hs : o.isSome) : 0 < (l.filterMap id).length := by
  obtain ⟨p, rfl⟩ := Option.isSome_iff_exists.mp hs
  have hp : p ∈ l.filterMap id := List.mem_filterMap.mpr ⟨some p, hmem, rfl⟩
  exact List.length_pos.mpr (List.ne_nil_of_mem hp)

theorem calculateSingleIntercept_isSome (n : ℤ) (hn : n ≠ 0) :
    (calculateSingleIntercept n).isSome := by
  rw [calculateSingleIntercept_of_ne n hn]
  rfl

/-- A validated cubic index set always yields at least one finite
intersection point. -/
theorem cubic_has_finite_point (h k l : ℤ) (hne : ¬(h = 0 ∧ k = 0 ∧ l = 0)) :
    0 < ((Result.intersectionList (computePure (.cubic h k l))).filterMap id).length := by
  show 0 < (([(calculateCubicIntercepts h k l).x, (calculateCubicIntercepts h k l).y,
    (calculateCubicIntercepts h k l).z]).filterMap id).length
  have hcases : h ≠ 0 ∨ k ≠ 0 ∨ l ≠ 0 := by tauto
  rcases hcases with hx | hx | hx
  · exact filterMap_id_length_pos (o := (calculateCubicIntercepts h k l).z) (by simp)
      (by simp [calculateCubicIntercepts, Option.isSome_map, calculateSingleIntercept_isSome h hx])
  · exact filterMap_id_length_pos (o := (calculateCubicIntercepts h k l).x) (by simp)
      (by simp [calculateCubicIntercepts, Option.isSome_map, calculateSingleIntercept_isSome k hx])
  · exact filterMap_id_length_pos (o := (calculateCubicIntercepts h k l).y) (by simp)
      (by simp [calculateCubicIntercepts, Option.isSome_map, calculateSingleIntercept_isSome l hx])

/-- A validated hexagonal index set always yields at least one finite
intersection point (some of `h, k, i` nonzero, or `l ≠ 0`). -/
theorem hex_has_finite_point (h k i l : ℤ) (hz : ¬(h = 0 ∧ k = 0 ∧ i = 0 ∧ l = 0)) :
    0 < ((Result.intersectionList (computePure (.hexagonal h k i l))).filterMap id).length := by
  show 0 < (([(calculateHexagonalIntercepts h k i l).a1, (calculateHexagonalIntercepts h k i l).a2,
    (calculateHexagonalIntercepts h k i l).a3,
    (calculateHexagonalIntercepts h k i l).c]).filterMap id).length
  have hcases : h ≠ 0 ∨ k ≠ 0 ∨ i ≠ 0 ∨ l ≠ 0 := by tauto
  rcases hcases with hx | hx | hx | hx
  · exact filterMap_id_length_pos (o := (calculateHexagonalIntercepts h k i l).a1) (by simp)
      (by simp [calculateHexagonalIntercepts, Option.isSome_map, calculateSingleIntercept_isSome h hx])
  · exact filterMap_id_length_pos (o := (calculateHexagonalIntercepts h k i l).a2) (by simp)
      (by simp [calculateHexagonalIntercepts, Option.isSome_map, calculateSingleIntercept_isSome k hx])
  · exact filterMap_id_length_pos (o := (calculateHexagonalIntercepts h k i l).a3) (by simp)
      (by simp [calculateHexagonalIntercepts, Option.isSome_map, calculateSingleIntercept_isSome i hx])
  · exact filterMap_id_length_pos (o := (calculateHexagonalIntercepts h k i l).c) (by simp)
      (by simp [calculateHexagonalIntercepts, Option.isSome_map, calculateSingleIntercept_isSome l hx])

/--
C10 counterexample. The claim "the center returned by compute is the
arithmetic mean of one or more actual intersection points" fails at the valid
cubic index set `(100000, 100000, 100000)`: the engine snaps the tiny mean
`(1/300000, 1/300000, 1/300000)` (squared length `1/(3·10¹⁰) < 1e-10`) to the
exact origin, which is the mean of no nonempty subset of the three
intersection points.
-/
theorem claim_C10_counterexample :
    validateIndices (.cubic 100000 100000 100000) = .ok () ∧
    (calculateCubicIntercepts 100000 100000 100000).center = 0 ∧
    [(calculateCubicIntercepts 100000 100000 100000).x,
     (calculateCubicIntercepts 100000 100000 100000).y,
     (calculateCubicIntercepts 100000 100000 100000).z].filterMap id
      = [v3Q (1 / 100000) 0 0, v3Q 0 (1 / 100000) 0, v3Q 0 0 (1 / 100000)] ∧
    meanV [v3Q (1 / 100000) 0 0, v3Q 0 (1 / 100000) 0, v3Q 0 0 (1 / 100000)] ≠ 0 ∧
    meanV [v3Q (1 / 100000) 0 0] ≠ 0 ∧
    meanV [v3Q 0 (1 / 100000) 0] ≠ 0 ∧
    meanV [v3Q 0 0 (1 / 100000)] ≠ 0 ∧
    meanV [v3Q (1 / 100000) 0 0, v3Q 0 (1 / 100000) 0] ≠ 0 ∧
    meanV [v3Q (1 / 100000) 0 0, v3Q 0 0 (1 / 100000)] ≠ 0 ∧
    meanV [v3Q 0 (1 / 100000) 0, v3Q 0 0 (1 / 100000)] ≠ 0 := by
  have hq : ((100000 : ℤ) : ℚ) = (100000 : ℚ) := by norm_num
  have hx : (calculateCubicIntercepts 100000 100000 100000).x = some (v3Q (1 / 100000) 0 0) := by
    simp [calculateCubicIntercepts, calculateSingleIntercept_of_ne, hq]
  have hy : (calculateCubicIntercepts 100000 100000 100000).y = some (v3Q 0 (1 / 100000) 0) := by
    simp [calculateCubicIntercepts, calculateSingleIntercept_of_ne, hq]
  have hz : (calculateCubicIntercepts 100000 100000 100000).z = some (v3Q 0 0 (1 / 100000)) := by
    simp [calculateCubicIntercepts, calculateSingleIntercept_of_ne, hq]
  have hlist : [(calculateCubicIntercepts 100000 100000 100000).x,
      (calculateCubicIntercepts 100000 100000 100000).y,
      (calculateCubicIntercepts 100000 100000 100000).z].filterMap id
      = [v3Q (1 / 100000) 0 0, v3Q 0 (1 / 100000) 0, v3Q 0 0 (1 / 100000)] := by
    rw [hx, hy, hz]; rfl
  have hmean : meanV [v3Q (1 / 100000) 0 0, v3Q 0 (1 / 100000) 0, v3Q 0 0 (1 / 100000)]
      = v3Q (1 / 300000) (1 / 300000) (1 / 300000) := by
    simp [meanV, sumV, List.foldl, v3Q, V3.smul, V3.eq_iff_coords, K.eq_iff_parts, K.smul]
    norm_num
  have hlt : K.lt (v3Q (1 / 300000) (1 / 300000) (1 / 300000)).lengthSq epsK := by
    simp [K.lt, K.le, K.nonneg, V3.lengthSq, v3Q, epsK, epsQ, K.ofQ, K.eq_iff_parts]
    norm_num
  have hcenter : (calculateCubicIntercepts 100000 100000 100000).center = 0 := by
    have hc : (calculateCubicIntercepts 100000 100000 100000).center
        = calculatePlaneCenter [(calculateCubicIntercepts 100000 100000 100000).x,
            (calculateCubicIntercepts 100000 100000 100000).y,
            (calculateCubicIntercepts 100000 100000 100000).z] := rfl
    rw [hc]
    simp only [calculatePlaneCenter, hlist]
    rw [if_neg (by simp), hmean, if_pos hlt]
  refine ⟨rfl, hcenter, hlist, ?_, ?_, ?_, ?_, ?_, ?_, ?_⟩ <;>
    norm_num [meanV, sumV, List.foldl, v3Q, V3.smul, V3.eq_iff_coords, K.eq_iff_parts, K.smul]

/--
C10 (amended). For every index set accepted by validation, at least one
intersection point is finite — so the no-valid-points origin-fallback branch
of the center calculation is unreachable — and the center is the arithmetic
mean of the finite intersection points, except that a mean with squared
length below the `1e-10` threshold is snapped to the exact origin.
-/
theorem claim_C10_center_mean (p : Params) (hv : validateIndices p = .ok ()) :
    0 < ((computePure p).intersectionList.filterMap id).length ∧
    (computePure p).center =
      (if K.lt (meanV ((computePure p).intersectionList.filterMap id)).lengthSq epsK
       then 0 else meanV ((computePure p).intersectionList.filterMap id)) := by
  have hpos : 0 < ((computePure p).intersectionList.filterMap id).length := by
    cases p with
    | cubic h k l => exact cubic_has_finite_point h k l ((validate_cubic_iff h k l).mp hv)
    | hexagonal h k i l =>
        exact hex_has_finite_point h k i l ((validate_hex_iff h k i l).mp hv).1
  refine ⟨hpos, ?_⟩
  have hc : (computePure p).center = calculatePlaneCenter ((computePure p).intersectionList) := by
    cases p <;> rfl
  rw [hc]
  unfold calculatePlaneCenter
  rw [if_neg (by omega)]

/-- Witness for the amended C10 at cubic `(1, 1, 1)`. -/
theorem claim_C10_center_mean_witness :
    validateIndices (.cubic 1 1 1) = .ok () ∧
    (0 < ((computePure (.cubic 1 1 1)).intersectionList.filterMap id).length ∧
     (computePure (.cubic 1 1 1)).center =
       (if K.lt (meanV ((computePure (.cubic 1 1 1)).intersectionList.filterMap id)).lengthSq epsK
        then 0 else meanV ((computePure (.cubic 1 1 1)).intersectionList.filterMap id))) :=
  ⟨rfl, claim_C10_center_mean (.cubic 1 1 1) rfl⟩

/--
C6. For every hexagonal result of the engine, the display transform of
`visualize` applies the single fixed coordinate permutation
`(x, y, z) ↦ (x, z, y)` identically to every intersection point and to the
normal vector, recomputes the center as the arithmetic mean of the
transformed finite points, and leaves the size and parameters fields
unchanged.
-/
theorem claim_C6_display_transform (h k i l : ℤ)
    (hv : validateIndices (.hexagonal h k i l) = .ok ()) :
    (toDisplayFrame (calculateHexagonalIntercepts h k i l)).c
        = (calculateHexagonalIntercepts h k i l).c.map swapV ∧
    (toDisplayFrame (calculateHexagonalIntercepts h k i l)).a1
        = (calculateHexagonalIntercepts h k i l).a1.map swapV ∧
    (toDisplayFrame (calculateHexagonalIntercepts h k i l)).a2
        = (calculateHexagonalIntercepts h k i l).a2.map swapV ∧
    (toDisplayFrame (calculateHexagonalIntercepts h k i l)).a3
        = (calculateHexagonalIntercepts h k i l).a3.map swapV ∧
    (toDisplayFrame (calculateHexagonalIntercepts h k i l)).normalR
        = swapR (calculateHexagonalIntercepts h k i l).normal.toR ∧
    (toDisplayFrame (calculateHexagonalIntercepts h k i l)).center
        = meanV ([(toDisplayFrame (calculateHexagonalIntercepts h k i l)).c,
            (toDisplayFrame (calculateHexagonalIntercepts h k i l)).a1,
            (toDisplayFrame (calculateHexagonalIntercepts h k i l)).a2,
            (toDisplayFrame (calculateHexagonalIntercepts h k i l)).a3].filterMap id) ∧
    (toDisplayFrame (calculateHexagonalIntercepts h k i l)).size
        = (calculateHexagonalIntercepts h k i l).size ∧
    (toDisplayFrame (calculateHexagonalIntercepts h k i l)).params
        = (calculateHexagonalIntercepts h k i l).params := by
  obtain ⟨hz, hsum⟩ := (validate_hex_iff h k i l).mp hv
  have hne := hex_hkl_ne_zero hz hsum
  have hcc : (calculateHexagonalIntercepts h k i l).c
      = (calculateSingleIntercept l).map (fun q => v3Q 0 0 q) := by
    simp [calculateHexagonalIntercepts]
  have ha1 : (calculateHexagonalIntercepts h k i l).a1
      = (calculateSingleIntercept h).map (fun q => v3Q q 0 0) := by
    simp [calculateHexagonalIntercepts]
  have ha2 : (calculateHexagonalIntercepts h k i l).a2
      = (calculateSingleIntercept k).map
          (fun q => V3.mk (K.ofQ (q * (-1 / 2))) ⟨0, q / 2⟩ 0) := by
    simp [calculateHexagonalIntercepts]
  have ha3 : (calculateHexagonalIntercepts h k i l).a3
      = (calculateSingleIntercept i).map
          (fun q => V3.mk (K.ofQ (q * (-1 / 2))) ⟨0, -(q / 2)⟩ 0) := by
    simp [calculateHexagonalIntercepts]
  have hc1 : (toDisplayFrame (calculateHexagonalIntercepts h k i l)).c
      = (calculateHexagonalIntercepts h k i l).c.map swapV := by
    show ((calculateHexagonalIntercepts h k i l).c.map fun p => V3.mk 0 p.z 0)
        = (calculateHexagonalIntercepts h k i l).c.map swapV
    rw [hcc]
    cases calculateSingleIntercept l <;>
      simp [swapV, v3Q, V3.eq_iff_coords, K.eq_iff_parts]
  have hc2 : (toDisplayFrame (calculateHexagonalIntercepts h k i l)).a1
      = (calculateHexagonalIntercepts h k i l).a1.map swapV := by
    show ((calculateHexagonalIntercepts h k i l).a1.map fun p => V3.mk p.x 0 0)
        = (calculateHexagonalIntercepts h k i l).a1.map swapV
    rw [ha1]
    cases calculateSingleIntercept h <;>
      simp [swapV, v3Q, V3.eq_iff_coords, K.eq_iff_parts]
  have hc3 : (toDisplayFrame (calculateHexagonalIntercepts h k i l)).a2
      = (calculateHexagonalIntercepts h k i l).a2.map swapV := by
    show ((calculateHexagonalIntercepts h k i l).a2.map fun p => V3.mk p.x 0 p.y)
        = (calculateHexagonalIntercepts h k i l).a2.map swapV
    rw [ha2]
    cases calculateSingleIntercept k <;>
      simp [swapV, v3Q, V3.eq_iff_coords, K.eq_iff_parts]
  have hc4 : (toDisplayFrame (calculateHexagonalIntercepts h k i l)).a3
      = (calculateHexagonalIntercepts h k i l).a3.map swapV := by
    show ((calculateHexagonalIntercepts h k i l).a3.map fun p => V3.mk p.x 0 p.y)
        = (calculateHexagonalIntercepts h k i l).a3.map swapV
    rw [ha3]
    cases calculateSingleIntercept i <;>
      simp [swapV, v3Q, V3.eq_iff_coords, K.eq_iff_parts]
  have hnormal : (calculateHexagonalIntercepts h k i l).normal
      = calculateHexagonalPlaneNormal h k l := by
    simp [calculateHexagonalIntercepts]
  have hn : (toDisplayFrame (calculateHexagonalIntercepts h k i l)).normalR
      = swapR (calculateHexagonalIntercepts h k i l).normal.toR := by
    show normalizeR (swapR (calculateHexagonalIntercepts h k i l).normal.toR)
        = swapR (calculateHexagonalIntercepts h k i l).normal.toR
    apply normalizeR_of_norm_one
    rw [norm3_swapR, hnormal]
    exact hexNormal_norm_one h k l hne
  have hcenter : (toDisplayFrame (calculateHexagonalIntercepts h k i l)).center
      = meanV ([(toDisplayFrame (calculateHexagonalIntercepts h k i l)).c,
          (toDisplayFrame (calculateHexagonalIntercepts h k i l)).a1,
          (toDisplayFrame (calculateHexagonalIntercepts h k i l)).a2,
          (toDisplayFrame (calculateHexagonalIntercepts h k i l)).a3].filterMap id) := by
    have hposT : 0 < ([(toDisplayFrame (calculateHexagonalIntercepts h k i l)).c,
        (toDisplayFrame (calculateHexagonalIntercepts h k i l)).a1,
        (toDisplayFrame (calculateHexagonalIntercepts h k i l)).a2,
        (toDisplayFrame (calculateHexagonalIntercepts h k i l)).a3].filterMap id).length := by
      have hcases : h ≠ 0 ∨ k ≠ 0 ∨ i ≠ 0 ∨ l ≠ 0 := by tauto
      rcases hcases with hx | hx | hx | hx
      · exact filterMap_id_length_pos
          (o := (toDisplayFrame (calculateHexagonalIntercepts h k i l)).a1) (by simp)
          (by rw [hc2, ha1]
              simp [Option.isSome_map, calculateSingleIntercept_isSome h hx])
      · exact filterMap_id_length_pos
          (o := (toDisplayFrame (calculateHexagonalIntercepts h k i l)).a2) (by simp)
          (by rw [hc3, ha2]
              simp [Option.isSome_map, calculateSingleIntercept_isSome k hx])
      · exact filterMap_id_length_pos
          (o := (toDisplayFrame (calculateHexagonalIntercepts h k i l)).a3) (by simp)
          (by rw [hc4, ha3]
              simp [Option.isSome_map, calculateSingleIntercept_isSome i hx])
      · exact filterMap_id_length_pos
          (o := (toDisplayFrame (calculateHexagonalIntercepts h k i l)).c) (by simp)
          (by rw [hc1, hcc]
              simp [Option.isSome_map, calculateSingleIntercept_isSome l hx])
    show (if 0 < ([(toDisplayFrame (calculateHexagonalIntercepts h k i l)).c,
        (toDisplayFrame (calculateHexagonalIntercepts h k i l)).a1,
        (toDisplayFrame (calculateHexagonalIntercepts h k i l)).a2,
        (toDisplayFrame (calculateHexagonalIntercepts h k i l)).a3].filterMap id).length
      then meanV ([(toDisplayFrame (calculateHexagonalIntercepts h k i l)).c,
        (toDisplayFrame (calculateHexagonalIntercepts h k i l)).a1,
        (toDisplayFrame (calculateHexagonalIntercepts h k i l)).a2,
        (toDisplayFrame (calculateHexagonalIntercepts h k i l)).a3].filterMap id)
      else V3.mk (calculateHexagonalIntercepts h k i l).center.x
        (calculateHexagonalIntercepts h k i l).center.z
        (calculateHexagonalIntercepts h k i l).center.y)
      = meanV ([(toDisplayFrame (calculateHexagonalIntercepts h k i l)).c,
          (toDisplayFrame (calculateHexagonalIntercepts h k i l)).a1,
          (toDisplayFrame (calculateHexagonalIntercepts h k i l)).a2,
          (toDisplayFrame (calculateHexagonalIntercepts h k i l)).a3].filterMap id)
    rw [if_pos hposT]
  exact ⟨hc1, hc2, hc3, hc4, hn, hcenter, rfl, rfl⟩

/-- Witness for C6 at the hexagonal prism-face set `(1, 0, -1, 0)` (the
spec's Scenario C). -/
theorem claim_C6_display_transform_witness :
    validateIndices (.hexagonal 1 0 (-1) 0) = .ok () ∧
    ((toDisplayFrame (calculateHexagonalIntercepts 1 0 (-1) 0)).c
        = (calculateHexagonalIntercepts 1 0 (-1) 0).c.map swapV ∧
     (toDisplayFrame (calculateHexagonalIntercepts 1 0 (-1) 0)).a1
        = (calculateHexagonalIntercepts 1 0 (-1) 0).a1.map swapV ∧
     (toDisplayFrame (calculateHexagonalIntercepts 1 0 (-1) 0)).a2
        = (calculateHexagonalIntercepts 1 0 (-1) 0).a2.map swapV ∧
     (toDisplayFrame (calculateHexagonalIntercepts 1 0 (-1) 0)).a3
        = (calculateHexagonalIntercepts 1 0 (-1) 0).a3.map swapV ∧
     (toDisplayFrame (calculateHexagonalIntercepts 1 0 (-1) 0)).normalR
        = swapR (calculateHexagonalIntercepts 1 0 (-1) 0).normal.toR ∧
     (toDisplayFrame (calculateHexagonalIntercepts 1 0 (-1) 0)).center
        = meanV ([(toDisplayFrame (calculateHexagonalIntercepts 1 0 (-1) 0)).c,
            (toDisplayFrame (calculateHexagonalIntercepts 1 0 (-1) 0)).a1,
            (toDisplayFrame (calculateHexagonalIntercepts 1 0 (-1) 0)).a2,
            (toDisplayFrame (calculateHexagonalIntercepts 1 0 (-1) 0)).a3].filterMap id) ∧
     (toDisplayFrame (calculateHexagonalIntercepts 1 0 (-1) 0)).size
        = (calculateHexagonalIntercepts 1 0 (-1) 0).size ∧
     (toDisplayFrame (calculateHexagonalIntercepts 1 0 (-1) 0)).params
        = (calculateHexagonalIntercepts 1 0 (-1) 0).params) := by
  have hv : validateIndices (.hexagonal 1 0 (-1) 0) = .ok () := rfl
  exact ⟨hv, claim_C6_display_transform 1 0 (-1) 0 hv⟩

end Miller
